import Mathlib

/-!
# Verification of the payments-engine ledger state machine

Shallow embedding of `src/transaction_manager.rs` and the output
truncation of `src/csv_writer.rs`.

Modelling conventions:
* Rust `f64` amounts are modelled as rationals (`ℚ`): the engine only adds,
  subtracts and compares amounts, and the spec restricts amounts to decimal
  values with at most 4 fractional digits.
* `HashMap<K, V>` is modelled as an association list `List (Nat × K)` with
  first-match lookup and overwrite-in-place insertion (`alistInsert`);
  the list order is a model artifact (Rust `HashMap` iteration order is
  unspecified).
* `process_transaction(&mut self, tx) -> Result<(), _>` is modelled as a pure
  function returning the new manager state together with the
  `Except ClientAccountLockedError Unit` result.  On the error path the Rust
  function has not mutated anything (account creation only happens for absent,
  hence unlocked, accounts), which is proved below rather than assumed.
* Rust constructs every `Transaction` through `Transaction::new`, which sets
  `state = Executed`; stream-level theorems therefore build entries with
  `Transaction.new`.
-/

namespace PaymentsEngine

/-- Amounts (`f64` in the Rust source, used only via `+`, `-`, `>=`). -/
abbrev Amount := ℚ

/-- `TransactionState` from `transaction_manager.rs`. -/
inductive TransactionState where
  | Executed
  | Disputed
  | Resolved
  | Chargedback
deriving DecidableEq

/-- `TransactionType` from `transaction_manager.rs`. -/
inductive TransactionType where
  | Deposit (amount : Amount)
  | Withdrawal (amount : Amount)
  | Dispute
  | Resolve
  | Chargeback
deriving DecidableEq

/-- `Transaction` from `transaction_manager.rs` (`client: u16`, `tx: u32`
modelled as `Nat`; the ids are only compared for equality). -/
structure Transaction where
  transaction_type : TransactionType
  client : Nat
  tx : Nat
  state : TransactionState
deriving DecidableEq

/-- `Transaction::new`: always starts in state `Executed`. -/
def Transaction.new (transaction_type : TransactionType) (client : Nat) (tx : Nat) :
    Transaction :=
  { transaction_type := transaction_type, client := client, tx := tx,
    state := TransactionState.Executed }

/-- First-match lookup in an association list (models `HashMap::get`). -/
def alistLookup {α : Type} (k : Nat) : List (Nat × α) → Option α
  | [] => none
  | p :: rest => if k = p.1 then some p.2 else alistLookup k rest

/-- Overwriting insertion (models `HashMap::insert`, last write wins). -/
def alistInsert {α : Type} (k : Nat) (v : α) : List (Nat × α) → List (Nat × α)
  | [] => [(k, v)]
  | p :: rest => if k = p.1 then (k, v) :: rest else p :: alistInsert k v rest

/-- `ClientAccount` from `transaction_manager.rs`. -/
structure ClientAccount where
  client : Nat
  available : Amount
  held : Amount
  locked : Bool
  transaction_index : List (Nat × Transaction)
deriving DecidableEq

/-- `ClientAccount::new`: unlocked, empty transaction index. -/
def ClientAccount.new (client : Nat) (available : Amount) (held : Amount) :
    ClientAccount :=
  { client := client, available := available, held := held,
    locked := false, transaction_index := [] }

/-- `ClientAccountLockedError` from `transaction_manager.rs`: a fieldless
struct; it carries no data about which client was locked. -/
structure ClientAccountLockedError where
deriving DecidableEq

/-- The `Display` implementation of `ClientAccountLockedError`: a fixed
message that does not mention any client. -/
def ClientAccountLockedError.message (_ : ClientAccountLockedError) : String :=
  "The client account is locked"

/-- `TransactionManager` from `transaction_manager.rs`. -/
structure TransactionManager where
  client_account_index : List (Nat × ClientAccount)
deriving DecidableEq

/-- `TransactionManager::new`. -/
def TransactionManager.new : TransactionManager :=
  { client_account_index := [] }

/-- The account `process_transaction` operates on: the existing account for
the client, or the freshly created zero account (first lines of
`process_transaction`; also §4.2 `get_or_create` of the spec). -/
def TransactionManager.get_or_create (m : TransactionManager) (client : Nat) :
    ClientAccount :=
  match alistLookup client m.client_account_index with
  | some acc => acc
  | none => ClientAccount.new client 0 0

/-- The body of `process_transaction` acting on the borrowed client account:
the locked-account preamble followed by the per-variant `match` of
`transaction_manager.rs` lines 112-171.  Returns the updated account and the
`Result`. -/
def process_on_account (client_account : ClientAccount) (transaction : Transaction) :
    ClientAccount × Except ClientAccountLockedError Unit :=
  if client_account.locked then
    (client_account, Except.error ⟨⟩)
  else
    match transaction.transaction_type with
    | TransactionType.Deposit amount =>
        ({ client_account with
            available := client_account.available + amount,
            transaction_index :=
              alistInsert transaction.tx transaction client_account.transaction_index },
         Except.ok ())
    | TransactionType.Withdrawal amount =>
        if client_account.available ≥ amount then
          ({ client_account with
              available := client_account.available - amount,
              transaction_index :=
                alistInsert transaction.tx transaction client_account.transaction_index },
           Except.ok ())
        else
          (client_account, Except.ok ())
    | TransactionType.Dispute =>
        match alistLookup transaction.tx client_account.transaction_index with
        | some disputed_transaction =>
            match disputed_transaction.state, disputed_transaction.transaction_type with
            | TransactionState.Executed, TransactionType.Deposit amount =>
                ({ client_account with
                    held := client_account.held + amount,
                    available := client_account.available - amount,
                    transaction_index :=
                      alistInsert transaction.tx
                        { disputed_transaction with state := TransactionState.Disputed }
                        client_account.transaction_index },
                 Except.ok ())
            | _, _ => (client_account, Except.ok ())
        | none => (client_account, Except.ok ())
    | TransactionType.Resolve =>
        match alistLookup transaction.tx client_account.transaction_index with
        | some disputed_transaction =>
            match disputed_transaction.state, disputed_transaction.transaction_type with
            | TransactionState.Disputed, TransactionType.Deposit amount =>
                ({ client_account with
                    held := client_account.held - amount,
                    available := client_account.available + amount,
                    transaction_index :=
                      alistInsert transaction.tx
                        { disputed_transaction with state := TransactionState.Resolved }
                        client_account.transaction_index },
                 Except.ok ())
            | _, _ => (client_account, Except.ok ())
        | none => (client_account, Except.ok ())
    | TransactionType.Chargeback =>
        match alistLookup transaction.tx client_account.transaction_index with
        | some disputed_transaction =>
            match disputed_transaction.state, disputed_transaction.transaction_type with
            | TransactionState.Disputed, TransactionType.Deposit amount =>
                ({ client_account with
                    held := client_account.held - amount,
                    locked := true,
                    transaction_index :=
                      alistInsert transaction.tx
                        { disputed_transaction with state := TransactionState.Chargedback }
                        client_account.transaction_index },
                 Except.ok ())
            | _, _ => (client_account, Except.ok ())
        | none => (client_account, Except.ok ())

/-- `TransactionManager::process_transaction`: create the account if absent,
run the locked check and the per-variant logic, store the account back. -/
def TransactionManager.process_transaction (m : TransactionManager)
    (transaction : Transaction) :
    TransactionManager × Except ClientAccountLockedError Unit :=
  let r := process_on_account (m.get_or_create transaction.client) transaction
  ({ client_account_index :=
      alistInsert transaction.client r.1 m.client_account_index }, r.2)

/-- The state after processing one transaction (the Rust function mutates
`self`; on the error path nothing has been mutated, proved below). -/
def TransactionManager.apply (m : TransactionManager) (t : Transaction) :
    TransactionManager :=
  (m.process_transaction t).1

/-- Sequential application of a stream of entries (the `while let` loop of
`run` in `lib.rs`). -/
def applyAll (m : TransactionManager) (ts : List Transaction) : TransactionManager :=
  ts.foldl TransactionManager.apply m

/-- `true` iff every entry of the stream is accepted (no
`ClientAccountLockedError` aborts the run). -/
def processes_cleanly (m : TransactionManager) : List Transaction → Bool
  | [] => true
  | t :: rest =>
      match m.process_transaction t with
      | (m', Except.ok _) => processes_cleanly m' rest
      | (_, Except.error _) => false

/-- Entry streams as the program builds them: every transaction is
constructed with `Transaction::new` (`csv_reader.rs` `to_transaction`). -/
def toEntries (l : List (TransactionType × Nat × Nat)) : List Transaction :=
  l.map fun e => Transaction.new e.1 e.2.1 e.2.2



/-! ## Association list lemmas -/

theorem Transaction.new_client (tt : TransactionType) (c tx : Nat) :
    (Transaction.new tt c tx).client = c := rfl

theorem Transaction.new_tx (tt : TransactionType) (c tx : Nat) :
    (Transaction.new tt c tx).tx = tx := rfl

theorem Transaction.new_state (tt : TransactionType) (c tx : Nat) :
    (Transaction.new tt c tx).state = TransactionState.Executed := rfl

theorem alistLookup_alistInsert_self {α : Type} (k : Nat) (v : α) (l : List (Nat × α)) :
    alistLookup k (alistInsert k v l) = some v := by
  induction l with
  | nil => simp [alistLookup, alistInsert]
  | cons p rest ih =>
      by_cases h : k = p.1
      · simp [alistLookup, alistInsert, h]
      · simp [alistLookup, alistInsert, h, ih]

theorem alistLookup_alistInsert_ne {α : Type} (k k' : Nat) (v : α) (l : List (Nat × α))
    (h : k ≠ k') : alistLookup k (alistInsert k' v l) = alistLookup k l := by
  induction l with
  | nil => simp [alistLookup, alistInsert, h]
  | cons p rest ih =>
      by_cases h2 : k' = p.1
      · subst h2
        simp [alistLookup, alistInsert, h]
      · by_cases h3 : k = p.1
        · simp [alistLookup, alistInsert, h2, h3]
        · simp [alistLookup, alistInsert, h2, h3, ih]

theorem alistInsert_lookup_self {α : Type} (k : Nat) (v : α) (l : List (Nat × α))
    (h : alistLookup k l = some v) : alistInsert k v l = l := by
  induction l with
  | nil => simp [alistLookup] at h
  | cons p rest ih =>
      by_cases h2 : k = p.1
      · simp [alistLookup, h2] at h
        subst h2
        subst h
        simp [alistInsert]
      · simp [alistLookup, h2] at h
        simp [alistInsert, h2, ih h]

theorem alistInsert_alistInsert {α : Type} (k : Nat) (v w : α) (l : List (Nat × α)) :
    alistInsert k v (alistInsert k w l) = alistInsert k v l := by
  induction l with
  | nil => simp [alistInsert]
  | cons p rest ih =>
      by_cases h : k = p.1
      · simp [alistInsert, h]
      · simp [alistInsert, h, ih]

theorem alistLookup_mem {α : Type} (k : Nat) (v : α) (l : List (Nat × α))
    (h : alistLookup k l = some v) : (k, v) ∈ l := by
  induction l with
  | nil => simp [alistLookup] at h
  | cons p rest ih =>
      by_cases h2 : k = p.1
      · simp [alistLookup, h2] at h
        subst h2
        subst h
        exact List.mem_cons_self _ _
      · simp [alistLookup, h2] at h
        exact List.mem_cons_of_mem _ (ih h)

theorem mem_alistInsert {α : Type} (p : Nat × α) (k : Nat) (v : α) (l : List (Nat × α))
    (h : p ∈ alistInsert k v l) : p = (k, v) ∨ p ∈ l := by
  induction l with
  | nil => simpa [alistInsert] using h
  | cons q rest ih =>
      by_cases h2 : k = q.1
      · simp [alistInsert, h2] at h
        rcases h with h | h
        · left
          simp [h, h2]
        · right
          exact List.mem_cons_of_mem _ h
      · simp [alistInsert, h2] at h
        rcases h with h | h
        · right
          simp [h]
        · rcases ih h with h3 | h3
          · left
            exact h3
          · right
            exact List.mem_cons_of_mem _ h3

/-! ## Branch lemmas for `process_on_account` -/

theorem process_on_account_locked (acc : ClientAccount) (t : Transaction)
    (h : acc.locked = true) :
    process_on_account acc t = (acc, Except.error ⟨⟩) := by
  simp [process_on_account, h]

theorem process_on_account_deposit (acc : ClientAccount) (t : Transaction) (a : Amount)
    (hl : acc.locked = false) (ht : t.transaction_type = TransactionType.Deposit a) :
    process_on_account acc t =
      ({ acc with
          available := acc.available + a,
          transaction_index := alistInsert t.tx t acc.transaction_index },
       Except.ok ()) := by
  simp [process_on_account, hl, ht]

theorem process_on_account_withdrawal_ok (acc : ClientAccount) (t : Transaction) (a : Amount)
    (hl : acc.locked = false) (ht : t.transaction_type = TransactionType.Withdrawal a)
    (hav : acc.available ≥ a) :
    process_on_account acc t =
      ({ acc with
          available := acc.available - a,
          transaction_index := alistInsert t.tx t acc.transaction_index },
       Except.ok ()) := by
  simp [process_on_account, hl, ht, hav]

theorem process_on_account_withdrawal_insufficient (acc : ClientAccount) (t : Transaction)
    (a : Amount) (hl : acc.locked = false)
    (ht : t.transaction_type = TransactionType.Withdrawal a) (hav : acc.available < a) :
    process_on_account acc t = (acc, Except.ok ()) := by
  simp [process_on_account, hl, ht, not_le.mpr hav]


theorem process_on_account_dispute_hit (acc : ClientAccount) (t r : Transaction) (a : Amount)
    (hl : acc.locked = false) (ht : t.transaction_type = TransactionType.Dispute)
    (hr : alistLookup t.tx acc.transaction_index = some r)
    (hs : r.state = TransactionState.Executed)
    (hd : r.transaction_type = TransactionType.Deposit a) :
    process_on_account acc t =
      ({ acc with
          held := acc.held + a,
          available := acc.available - a,
          transaction_index :=
            alistInsert t.tx { r with state := TransactionState.Disputed }
              acc.transaction_index },
       Except.ok ()) := by
  simp [process_on_account, hl, ht, hr, hs, hd]

theorem process_on_account_dispute_noop (acc : ClientAccount) (t : Transaction)
    (hl : acc.locked = false) (ht : t.transaction_type = TransactionType.Dispute)
    (hno : ∀ r, alistLookup t.tx acc.transaction_index = some r →
      r.state = TransactionState.Executed →
      ∀ a, r.transaction_type ≠ TransactionType.Deposit a) :
    process_on_account acc t = (acc, Except.ok ()) := by
  rcases hr : alistLookup t.tx acc.transaction_index with _ | r
  · simp [process_on_account, hl, ht, hr]
  · rcases hs : r.state with _ | _ | _ | _ <;>
      rcases hd : r.transaction_type with a | a | _ | _ | _ <;>
      first
        | exact absurd hd (hno r hr hs a)
        | simp [process_on_account, hl, ht, hr, hs, hd]

theorem process_on_account_resolve_hit (acc : ClientAccount) (t r : Transaction) (a : Amount)
    (hl : acc.locked = false) (ht : t.transaction_type = TransactionType.Resolve)
    (hr : alistLookup t.tx acc.transaction_index = some r)
    (hs : r.state = TransactionState.Disputed)
    (hd : r.transaction_type = TransactionType.Deposit a) :
    process_on_account acc t =
      ({ acc with
          held := acc.held - a,
          available := acc.available + a,
          transaction_index :=
            alistInsert t.tx { r with state := TransactionState.Resolved }
              acc.transaction_index },
       Except.ok ()) := by
  simp [process_on_account, hl, ht, hr, hs, hd]

theorem process_on_account_resolve_noop (acc : ClientAccount) (t : Transaction)
    (hl : acc.locked = false) (ht : t.transaction_type = TransactionType.Resolve)
    (hno : ∀ r, alistLookup t.tx acc.transaction_index = some r →
      r.state = TransactionState.Disputed →
      ∀ a, r.transaction_type ≠ TransactionType.Deposit a) :
    process_on_account acc t = (acc, Except.ok ()) := by
  rcases hr : alistLookup t.tx acc.transaction_index with _ | r
  · simp [process_on_account, hl, ht, hr]
  · rcases hs : r.state with _ | _ | _ | _ <;>
      rcases hd : r.transaction_type with a | a | _ | _ | _ <;>
      first
        | exact absurd hd (hno r hr hs a)
        | simp [process_on_account, hl, ht, hr, hs, hd]

theorem process_on_account_chargeback_hit (acc : ClientAccount) (t r : Transaction)
    (a : Amount)
    (hl : acc.locked = false) (ht : t.transaction_type = TransactionType.Chargeback)
    (hr : alistLookup t.tx acc.transaction_index = some r)
    (hs : r.state = TransactionState.Disputed)
    (hd : r.transaction_type = TransactionType.Deposit a) :
    process_on_account acc t =
      ({ acc with
          held := acc.held - a,
          locked := true,
          transaction_index :=
            alistInsert t.tx { r with state := TransactionState.Chargedback }
              acc.transaction_index },
       Except.ok ()) := by
  simp [process_on_account, hl, ht, hr, hs, hd]

theorem process_on_account_chargeback_noop (acc : ClientAccount) (t : Transaction)
    (hl : acc.locked = false) (ht : t.transaction_type = TransactionType.Chargeback)
    (hno : ∀ r, alistLookup t.tx acc.transaction_index = some r →
      r.state = TransactionState.Disputed →
      ∀ a, r.transaction_type ≠ TransactionType.Deposit a) :
    process_on_account acc t = (acc, Except.ok ()) := by
  rcases hr : alistLookup t.tx acc.transaction_index with _ | r
  · simp [process_on_account, hl, ht, hr]
  · rcases hs : r.state with _ | _ | _ | _ <;>
      rcases hd : r.transaction_type with a | a | _ | _ | _ <;>
      first
        | exact absurd hd (hno r hr hs a)
        | simp [process_on_account, hl, ht, hr, hs, hd]

theorem process_on_account_snd_ok (acc : ClientAccount) (t : Transaction)
    (hl : acc.locked = false) :
    (process_on_account acc t).2 = Except.ok () := by
  rcases ht : t.transaction_type with a | a | _ | _ | _
  · simp [process_on_account, hl, ht]
  · by_cases hav : acc.available ≥ a <;> simp [process_on_account, hl, ht, hav]
  all_goals
    rcases hr : alistLookup t.tx acc.transaction_index with _ | r
  case Dispute.none => simp [process_on_account, hl, ht, hr]
  case Resolve.none => simp [process_on_account, hl, ht, hr]
  case Chargeback.none => simp [process_on_account, hl, ht, hr]
  all_goals
    rcases hs : r.state with _ | _ | _ | _ <;>
      rcases hd : r.transaction_type with a | a | _ | _ | _ <;>
      simp [process_on_account, hl, ht, hr, hs, hd]

theorem process_on_account_error_eq (acc : ClientAccount) (t : Transaction)
    (e : ClientAccountLockedError)
    (h : (process_on_account acc t).2 = Except.error e) :
    acc.locked = true ∧ process_on_account acc t = (acc, Except.error ⟨⟩) := by
  by_cases hl : acc.locked = true
  · exact ⟨hl, process_on_account_locked acc t hl⟩
  · rw [process_on_account_snd_ok acc t (by simpa using hl)] at h
    exact absurd h (by simp)


/-- Every possible outcome of `process_on_account`, with the branch
condition that selects it. -/
theorem process_on_account_cases (acc : ClientAccount) (t : Transaction) :
    (acc.locked = true ∧ process_on_account acc t = (acc, Except.error ⟨⟩))
    ∨ (acc.locked = false ∧ process_on_account acc t = (acc, Except.ok ()))
    ∨ (acc.locked = false ∧ ∃ a, t.transaction_type = TransactionType.Deposit a ∧
        process_on_account acc t =
          ({ acc with
              available := acc.available + a,
              transaction_index := alistInsert t.tx t acc.transaction_index },
           Except.ok ()))
    ∨ (acc.locked = false ∧ ∃ a, t.transaction_type = TransactionType.Withdrawal a ∧
        acc.available ≥ a ∧
        process_on_account acc t =
          ({ acc with
              available := acc.available - a,
              transaction_index := alistInsert t.tx t acc.transaction_index },
           Except.ok ()))
    ∨ (acc.locked = false ∧ ∃ r a, t.transaction_type = TransactionType.Dispute ∧
        alistLookup t.tx acc.transaction_index = some r ∧
        r.state = TransactionState.Executed ∧
        r.transaction_type = TransactionType.Deposit a ∧
        process_on_account acc t =
          ({ acc with
              held := acc.held + a,
              available := acc.available - a,
              transaction_index :=
                alistInsert t.tx { r with state := TransactionState.Disputed }
                  acc.transaction_index },
           Except.ok ()))
    ∨ (acc.locked = false ∧ ∃ r a, t.transaction_type = TransactionType.Resolve ∧
        alistLookup t.tx acc.transaction_index = some r ∧
        r.state = TransactionState.Disputed ∧
        r.transaction_type = TransactionType.Deposit a ∧
        process_on_account acc t =
          ({ acc with
              held := acc.held - a,
              available := acc.available + a,
              transaction_index :=
                alistInsert t.tx { r with state := TransactionState.Resolved }
                  acc.transaction_index },
           Except.ok ()))
    ∨ (acc.locked = false ∧ ∃ r a, t.transaction_type = TransactionType.Chargeback ∧
        alistLookup t.tx acc.transaction_index = some r ∧
        r.state = TransactionState.Disputed ∧
        r.transaction_type = TransactionType.Deposit a ∧
        process_on_account acc t =
          ({ acc with
              held := acc.held - a,
              locked := true,
              transaction_index :=
                alistInsert t.tx { r with state := TransactionState.Chargedback }
                  acc.transaction_index },
           Except.ok ())) := by
  by_cases hl : acc.locked = true
  · exact Or.inl ⟨hl, process_on_account_locked acc t hl⟩
  · have hl2 : acc.locked = false := by simpa using hl
    rcases ht : t.transaction_type with a | a | _ | _ | _
    · exact Or.inr (Or.inr (Or.inl
        ⟨hl2, a, rfl, process_on_account_deposit acc t a hl2 ht⟩))
    · by_cases hav : acc.available ≥ a
      · exact Or.inr (Or.inr (Or.inr (Or.inl
          ⟨hl2, a, rfl, hav, process_on_account_withdrawal_ok acc t a hl2 ht hav⟩)))
      · exact Or.inr (Or.inl
          ⟨hl2, process_on_account_withdrawal_insufficient acc t a hl2 ht (not_le.mp hav)⟩)
    · by_cases hhit : ∃ r a, alistLookup t.tx acc.transaction_index = some r ∧
        r.state = TransactionState.Executed ∧ r.transaction_type = TransactionType.Deposit a
      · rcases hhit with ⟨r, a, hr, hs, hd⟩
        exact Or.inr (Or.inr (Or.inr (Or.inr (Or.inl
          ⟨hl2, r, a, rfl, hr, hs, hd,
            process_on_account_dispute_hit acc t r a hl2 ht hr hs hd⟩))))
      · exact Or.inr (Or.inl ⟨hl2, process_on_account_dispute_noop acc t hl2 ht
          (fun r hr hs a hd => hhit ⟨r, a, hr, hs, hd⟩)⟩)
    · by_cases hhit : ∃ r a, alistLookup t.tx acc.transaction_index = some r ∧
        r.state = TransactionState.Disputed ∧ r.transaction_type = TransactionType.Deposit a
      · rcases hhit with ⟨r, a, hr, hs, hd⟩
        exact Or.inr (Or.inr (Or.inr (Or.inr (Or.inr (Or.inl
          ⟨hl2, r, a, rfl, hr, hs, hd,
            process_on_account_resolve_hit acc t r a hl2 ht hr hs hd⟩)))))
      · exact Or.inr (Or.inl ⟨hl2, process_on_account_resolve_noop acc t hl2 ht
          (fun r hr hs a hd => hhit ⟨r, a, hr, hs, hd⟩)⟩)
    · by_cases hhit : ∃ r a, alistLookup t.tx acc.transaction_index = some r ∧
        r.state = TransactionState.Disputed ∧ r.transaction_type = TransactionType.Deposit a
      · rcases hhit with ⟨r, a, hr, hs, hd⟩
        exact Or.inr (Or.inr (Or.inr (Or.inr (Or.inr (Or.inr
          ⟨hl2, r, a, rfl, hr, hs, hd,
            process_on_account_chargeback_hit acc t r a hl2 ht hr hs hd⟩)))))
      · exact Or.inr (Or.inl ⟨hl2, process_on_account_chargeback_noop acc t hl2 ht
          (fun r hr hs a hd => hhit ⟨r, a, hr, hs, hd⟩)⟩)

/-! ## `process_transaction`-level helpers -/

theorem process_transaction_eq (m : TransactionManager) (t : Transaction) :
    m.process_transaction t =
      ({ client_account_index :=
          alistInsert t.client (process_on_account (m.get_or_create t.client) t).1
            m.client_account_index },
       (process_on_account (m.get_or_create t.client) t).2) := rfl

theorem get_or_create_of_lookup (m : TransactionManager) (c : Nat) (acc : ClientAccount)
    (h : alistLookup c m.client_account_index = some acc) :
    m.get_or_create c = acc := by
  simp [TransactionManager.get_or_create, h]

theorem get_or_create_of_none (m : TransactionManager) (c : Nat)
    (h : alistLookup c m.client_account_index = none) :
    m.get_or_create c = ClientAccount.new c 0 0 := by
  simp [TransactionManager.get_or_create, h]

/-- A locked account must already be stored: fresh accounts are unlocked. -/
theorem lookup_of_locked (m : TransactionManager) (c : Nat)
    (h : (m.get_or_create c).locked = true) :
    alistLookup c m.client_account_index = some (m.get_or_create c) := by
  rcases hc : alistLookup c m.client_account_index with _ | acc
  · rw [get_or_create_of_none m c hc] at h
    simp [ClientAccount.new] at h
  · rw [get_or_create_of_lookup m c acc hc]


theorem apply_get_or_create_self (m : TransactionManager) (t : Transaction) :
    (m.apply t).get_or_create t.client =
      (process_on_account (m.get_or_create t.client) t).1 := by
  simp [TransactionManager.apply, process_transaction_eq,
    TransactionManager.get_or_create, alistLookup_alistInsert_self]

theorem apply_get_or_create_ne (m : TransactionManager) (t : Transaction) (c : Nat)
    (h : c ≠ t.client) :
    (m.apply t).get_or_create c = m.get_or_create c := by
  simp [TransactionManager.apply, process_transaction_eq,
    TransactionManager.get_or_create, alistLookup_alistInsert_ne _ _ _ _ h]

/-- If the per-account step leaves the stored account unchanged, the whole
manager is unchanged. -/
theorem apply_eq_self (m : TransactionManager) (t : Transaction) (acc : ClientAccount)
    (hc : alistLookup t.client m.client_account_index = some acc)
    (hstep : (process_on_account acc t).1 = acc) :
    m.apply t = m := by
  have h1 : m.get_or_create t.client = acc := get_or_create_of_lookup m t.client acc hc
  simp only [TransactionManager.apply, process_transaction_eq, h1, hstep]
  rw [alistInsert_lookup_self _ _ _ hc]


/-! ## C4: withdrawal behaviour -/

/-- C4: for every `Withdrawal{amount}` entry on an unlocked account, if
`available >= amount` then `available` decreases by `amount` and the entry
(a record in state `Executed`) is inserted under its `tx_id`; if
`available < amount` the entry is a no-op: `Ok` result, no record stored,
the account (and, when it already existed, the whole manager state)
unchanged. -/
theorem withdrawal_behavior (m : TransactionManager) (t : Transaction) (a : Amount)
    (ht : t.transaction_type = TransactionType.Withdrawal a)
    (hstate : t.state = TransactionState.Executed)
    (hl : (m.get_or_create t.client).locked = false) :
    ((m.get_or_create t.client).available ≥ a →
      m.process_transaction t =
        ({ client_account_index := alistInsert t.client
            { m.get_or_create t.client with
                available := (m.get_or_create t.client).available - a,
                transaction_index :=
                  alistInsert t.tx t (m.get_or_create t.client).transaction_index }
            m.client_account_index },
         Except.ok ()) ∧
      alistLookup t.tx ((m.apply t).get_or_create t.client).transaction_index = some t ∧
      t.state = TransactionState.Executed) ∧
    ((m.get_or_create t.client).available < a →
      m.process_transaction t =
        ({ client_account_index := alistInsert t.client (m.get_or_create t.client)
            m.client_account_index },
         Except.ok ()) ∧
      (m.apply t).get_or_create t.client = m.get_or_create t.client ∧
      (alistLookup t.client m.client_account_index = some (m.get_or_create t.client) →
        m.apply t = m)) := by
  constructor
  · intro hav
    have hstep := process_on_account_withdrawal_ok (m.get_or_create t.client) t a hl ht hav
    refine ⟨?_, ?_, hstate⟩
    · rw [process_transaction_eq, hstep]
    · rw [apply_get_or_create_self, hstep]
      exact alistLookup_alistInsert_self _ _ _
  · intro hav
    have hstep :=
      process_on_account_withdrawal_insufficient (m.get_or_create t.client) t a hl ht hav
    refine ⟨?_, ?_, ?_⟩
    · rw [process_transaction_eq, hstep]
    · rw [apply_get_or_create_self, hstep]
    · intro hacc
      exact apply_eq_self m t _ hacc (by rw [hstep])

/-- Witness for C4 at a concrete input: one client with 5 available,
withdrawing 3. -/
theorem withdrawal_behavior_witness :
    let M : TransactionManager := { client_account_index :=
      [(1, { client := 1, available := 5, held := 0, locked := false,
             transaction_index := [] })] }
    let t := Transaction.new (TransactionType.Withdrawal 3) 1 2
    (t.transaction_type = TransactionType.Withdrawal 3 ∧
     t.state = TransactionState.Executed ∧
     (M.get_or_create t.client).locked = false) ∧
    (((M.get_or_create t.client).available ≥ 3 →
      M.process_transaction t =
        ({ client_account_index := alistInsert t.client
            { M.get_or_create t.client with
                available := (M.get_or_create t.client).available - 3,
                transaction_index :=
                  alistInsert t.tx t (M.get_or_create t.client).transaction_index }
            M.client_account_index },
         Except.ok ()) ∧
      alistLookup t.tx ((M.apply t).get_or_create t.client).transaction_index = some t ∧
      t.state = TransactionState.Executed) ∧
    ((M.get_or_create t.client).available < 3 →
      M.process_transaction t =
        ({ client_account_index := alistInsert t.client (M.get_or_create t.client)
            M.client_account_index },
         Except.ok ()) ∧
      (M.apply t).get_or_create t.client = M.get_or_create t.client ∧
      (alistLookup t.client M.client_account_index = some (M.get_or_create t.client) →
        M.apply t = M))) :=
  ⟨⟨rfl, rfl, by norm_num [TransactionManager.get_or_create, Transaction.new, alistLookup]⟩,
   withdrawal_behavior _ _ 3 rfl rfl
     (by norm_num [TransactionManager.get_or_create, Transaction.new, alistLookup])⟩


/-! ## C6: disputing twice equals disputing once -/

theorem lookup_apply_self (m : TransactionManager) (t : Transaction) :
    alistLookup t.client (m.apply t).client_account_index =
      some ((m.apply t).get_or_create t.client) := by
  simp [TransactionManager.apply, process_transaction_eq,
    TransactionManager.get_or_create, alistLookup_alistInsert_self]

theorem dispute_apply_twice (m : TransactionManager) (t : Transaction)
    (htd : t.transaction_type = TransactionType.Dispute) :
    (m.apply t).apply t = m.apply t := by
  refine apply_eq_self (m.apply t) t _ (lookup_apply_self m t) ?_
  have hacc1 : (m.apply t).get_or_create t.client =
      (process_on_account (m.get_or_create t.client) t).1 := apply_get_or_create_self m t
  rcases process_on_account_cases (m.get_or_create t.client) t with
    ⟨hl, heq⟩ | ⟨hl, heq⟩ | ⟨hl, a, hta, heq⟩ | ⟨hl, a, hta, hav, heq⟩ |
    ⟨hl, r, a, hta, hr, hs, hd, heq⟩ | ⟨hl, r, a, hta, hr, hs, hd, heq⟩ |
    ⟨hl, r, a, hta, hr, hs, hd, heq⟩
  · have h1 : (m.apply t).get_or_create t.client = m.get_or_create t.client := by
      rw [hacc1, heq]
    rw [h1, heq]
  · have h1 : (m.apply t).get_or_create t.client = m.get_or_create t.client := by
      rw [hacc1, heq]
    rw [h1, heq]
  · rw [htd] at hta
    cases hta
  · rw [htd] at hta
    cases hta
  · rw [hacc1, heq]
    dsimp only
    refine congrArg Prod.fst (process_on_account_dispute_noop _ t ?_ htd ?_)
    · exact hl
    · intro r2 hr2 hs2 a2 hd2
      dsimp only at hr2
      rw [alistLookup_alistInsert_self] at hr2
      injection hr2 with h5
      rw [← h5] at hs2
      dsimp only at hs2
      cases hs2
  · rw [htd] at hta
    cases hta
  · rw [htd] at hta
    cases hta

/-- C6: applying the same Dispute entry twice in immediate succession, from
any manager state, produces the same final state as applying it once (the
second application is a no-op: after the first one the record, if any, is no
longer in state `Executed`). -/
theorem dispute_idempotent (m : TransactionManager) (c tx : Nat) (ts : TransactionState) :
    (m.apply { transaction_type := TransactionType.Dispute, client := c, tx := tx,
               state := ts }).apply
        { transaction_type := TransactionType.Dispute, client := c, tx := tx, state := ts } =
      m.apply { transaction_type := TransactionType.Dispute, client := c, tx := tx,
                state := ts } :=
  dispute_apply_twice m _ rfl


/-! ## C3: locked-account rejection -/

/-- C3 (amended): an entry whose target account is locked is rejected with a
`ClientAccountLockedError` and the whole manager state is unchanged; this is
the only error `process_transaction` raises, and it never arises for an
account that did not exist before the entry (fresh accounts are unlocked).
The error is a fieldless value with the fixed message
"The client account is locked"; it does not name the client. -/
theorem locked_account_rejection :
    (∀ (m : TransactionManager) (t : Transaction),
        (m.get_or_create t.client).locked = true →
        m.process_transaction t = (m, Except.error ⟨⟩)) ∧
    (∀ (m : TransactionManager) (t : Transaction) (e : ClientAccountLockedError),
        (m.process_transaction t).2 = Except.error e →
        (m.get_or_create t.client).locked = true ∧
        alistLookup t.client m.client_account_index = some (m.get_or_create t.client) ∧
        (m.process_transaction t).1 = m) ∧
    (∀ (m : TransactionManager) (t : Transaction),
        alistLookup t.client m.client_account_index = none →
        (m.process_transaction t).2 = Except.ok ()) ∧
    (∀ e : ClientAccountLockedError, e.message = "The client account is locked") := by
  have key : ∀ (m : TransactionManager) (t : Transaction),
      (m.get_or_create t.client).locked = true →
      m.process_transaction t = (m, Except.error ⟨⟩) := by
    intro m t hl
    have heq := process_on_account_locked _ t hl
    have hlook := lookup_of_locked m t.client hl
    rw [process_transaction_eq, heq]
    dsimp only
    rw [alistInsert_lookup_self _ _ _ hlook]
  refine ⟨key, ?_, ?_, fun e => rfl⟩
  · intro m t e h
    have h2 : (process_on_account (m.get_or_create t.client) t).2 = Except.error e := h
    obtain ⟨hl, heq⟩ := process_on_account_error_eq _ t e h2
    refine ⟨hl, lookup_of_locked m t.client hl, ?_⟩
    rw [key m t hl]
  · intro m t hnone
    have hl : (m.get_or_create t.client).locked = false := by
      rw [get_or_create_of_none m t.client hnone]
      rfl
    exact process_on_account_snd_ok _ t hl

/-- Witness for C3 at a concrete input: a locked account for client 1 rejects
a deposit and the state is unchanged. -/
theorem locked_account_rejection_witness :
    let M : TransactionManager := { client_account_index :=
      [(1, { client := 1, available := 4, held := 0, locked := true,
             transaction_index := [] })] }
    let t := Transaction.new (TransactionType.Deposit 7) 1 2
    (M.get_or_create t.client).locked = true ∧
    M.process_transaction t = (M, Except.error ⟨⟩) := by
  refine ⟨?h1, ?_⟩
  case h1 => norm_num [TransactionManager.get_or_create, Transaction.new, alistLookup]
  exact locked_account_rejection.1 _ _
    (by norm_num [TransactionManager.get_or_create, Transaction.new, alistLookup])

/-- C3 counterexample for the "names the client" part: the error type is a
fieldless singleton, so the errors produced for two different locked clients
are equal, and the only message it renders is the fixed string
"The client account is locked"; the error cannot name the client. -/
theorem locked_error_counterexample :
    (∀ e1 e2 : ClientAccountLockedError, e1 = e2) ∧
    (let M : TransactionManager := { client_account_index :=
        [(1, { client := 1, available := 0, held := 0, locked := true,
               transaction_index := [] }),
         (2, { client := 2, available := 0, held := 0, locked := true,
               transaction_index := [] })] }
     ∃ e1 e2 : ClientAccountLockedError,
       (M.process_transaction (Transaction.new TransactionType.Dispute 1 9)).2 =
         Except.error e1 ∧
       (M.process_transaction (Transaction.new TransactionType.Dispute 2 9)).2 =
         Except.error e2 ∧
       e1 = e2 ∧ e1.message = "The client account is locked") := by
  constructor
  · intro e1 e2
    cases e1
    cases e2
    rfl
  · refine ⟨⟨⟩, ⟨⟩, ?_, ?_, rfl, rfl⟩ <;>
      norm_num [process_transaction_eq, TransactionManager.get_or_create,
        Transaction.new, alistLookup, process_on_account]


/-! ## C1: dispute behaviour -/

/-- C1 (amended): for a Dispute entry whose target account is *not locked*,
the account is mutated iff the client's own index holds a record under the
entry's `tx_id` in state `Executed` whose underlying entry is a Deposit; then
`held` increases by the deposit's amount, `available` decreases by the same
amount and the record becomes `Disputed`; in every other case nothing changes
and no error is raised.  Depositing `amount` and immediately disputing it on
an unlocked account with no held funds gives `held = amount` and brings
`available` back to its pre-deposit value, i.e. (post-deposit available) -
amount. -/
theorem dispute_entry_behavior :
    (∀ (m : TransactionManager) (t r : Transaction) (a : Amount),
        t.transaction_type = TransactionType.Dispute →
        (m.get_or_create t.client).locked = false →
        alistLookup t.tx (m.get_or_create t.client).transaction_index = some r →
        r.state = TransactionState.Executed →
        r.transaction_type = TransactionType.Deposit a →
        m.process_transaction t =
          ({ client_account_index := alistInsert t.client
              { m.get_or_create t.client with
                  held := (m.get_or_create t.client).held + a,
                  available := (m.get_or_create t.client).available - a,
                  transaction_index :=
                    alistInsert t.tx { r with state := TransactionState.Disputed }
                      (m.get_or_create t.client).transaction_index }
              m.client_account_index },
           Except.ok ())) ∧
    (∀ (m : TransactionManager) (t : Transaction),
        t.transaction_type = TransactionType.Dispute →
        (m.get_or_create t.client).locked = false →
        (∀ r, alistLookup t.tx (m.get_or_create t.client).transaction_index = some r →
          r.state = TransactionState.Executed →
          ∀ a, r.transaction_type ≠ TransactionType.Deposit a) →
        (m.process_transaction t).2 = Except.ok () ∧
        (m.apply t).get_or_create t.client = m.get_or_create t.client ∧
        (alistLookup t.client m.client_account_index = some (m.get_or_create t.client) →
          m.apply t = m)) ∧
    (∀ (m : TransactionManager) (c tx : Nat) (a : Amount),
        (m.get_or_create c).locked = false →
        (m.get_or_create c).held = 0 →
        0 ≤ a →
        (((m.apply (Transaction.new (TransactionType.Deposit a) c tx)).apply
            (Transaction.new TransactionType.Dispute c tx)).get_or_create c).held = a ∧
        (((m.apply (Transaction.new (TransactionType.Deposit a) c tx)).apply
            (Transaction.new TransactionType.Dispute c tx)).get_or_create c).available =
          (m.get_or_create c).available ∧
        (((m.apply (Transaction.new (TransactionType.Deposit a) c tx)).apply
            (Transaction.new TransactionType.Dispute c tx)).get_or_create c).available =
          ((m.apply (Transaction.new (TransactionType.Deposit a) c tx)).get_or_create
            c).available - a ∧
        ((m.apply (Transaction.new (TransactionType.Deposit a) c tx)).process_transaction
          (Transaction.new TransactionType.Dispute c tx)).2 = Except.ok () ∧
        (m.process_transaction (Transaction.new (TransactionType.Deposit a) c tx)).2 =
          Except.ok ()) := by
  refine ⟨?_, ?_, ?_⟩
  · intro m t r a htd hl hr hs hd
    have hstep := process_on_account_dispute_hit _ t r a hl htd hr hs hd
    rw [process_transaction_eq, hstep]
  · intro m t htd hl hno
    have hstep := process_on_account_dispute_noop _ t hl htd hno
    refine ⟨?_, ?_, ?_⟩
    · exact congrArg Prod.snd hstep
    · rw [apply_get_or_create_self, hstep]
    · intro hacc
      exact apply_eq_self m t _ hacc (by rw [hstep])
  · intro m c tx a hl hheld ha
    have hstep1 :=
      process_on_account_deposit (m.get_or_create c)
        (Transaction.new (TransactionType.Deposit a) c tx) a hl rfl
    have h1 : (m.apply (Transaction.new (TransactionType.Deposit a) c tx)).get_or_create c =
        { m.get_or_create c with
            available := (m.get_or_create c).available + a,
            transaction_index :=
              alistInsert tx (Transaction.new (TransactionType.Deposit a) c tx)
                (m.get_or_create c).transaction_index } := by
      have h := apply_get_or_create_self m (Transaction.new (TransactionType.Deposit a) c tx)
      simp only [Transaction.new_client] at h
      rw [hstep1] at h
      exact h
    have hl1 : ((m.apply (Transaction.new (TransactionType.Deposit a) c tx)).get_or_create
        c).locked = false := by
      rw [h1]
      exact hl
    have hr1 : alistLookup tx
        ((m.apply (Transaction.new (TransactionType.Deposit a) c tx)).get_or_create
          c).transaction_index =
        some (Transaction.new (TransactionType.Deposit a) c tx) := by
      rw [h1]
      exact alistLookup_alistInsert_self _ _ _
    have hstep2 :=
      process_on_account_dispute_hit
        ((m.apply (Transaction.new (TransactionType.Deposit a) c tx)).get_or_create c)
        (Transaction.new TransactionType.Dispute c tx)
        (Transaction.new (TransactionType.Deposit a) c tx) a hl1 rfl hr1 rfl rfl
    have h2 : ((m.apply (Transaction.new (TransactionType.Deposit a) c tx)).apply
        (Transaction.new TransactionType.Dispute c tx)).get_or_create c =
        { (m.apply (Transaction.new (TransactionType.Deposit a) c tx)).get_or_create c with
            held := ((m.apply (Transaction.new (TransactionType.Deposit a) c
              tx)).get_or_create c).held + a,
            available := ((m.apply (Transaction.new (TransactionType.Deposit a) c
              tx)).get_or_create c).available - a,
            transaction_index :=
              alistInsert tx
                { Transaction.new (TransactionType.Deposit a) c tx with
                    state := TransactionState.Disputed }
                ((m.apply (Transaction.new (TransactionType.Deposit a) c
                  tx)).get_or_create c).transaction_index } := by
      have h := apply_get_or_create_self
        (m.apply (Transaction.new (TransactionType.Deposit a) c tx))
        (Transaction.new TransactionType.Dispute c tx)
      simp only [Transaction.new_client] at h
      rw [hstep2] at h
      exact h
    refine ⟨?_, ?_, ?_, ?_, ?_⟩
    · simp [h2, h1, hheld]
    · simp [h2, h1]
    · simp [h2, h1]
    · exact congrArg Prod.snd hstep2
    · exact congrArg Prod.snd hstep1

/-- Witness for C1 at a concrete input: deposit 2 then dispute it on a fresh
client (an instance of the third conjunct of the theorem). -/
theorem dispute_entry_behavior_witness :
    ((TransactionManager.new.get_or_create 1).locked = false ∧
     (TransactionManager.new.get_or_create 1).held = 0 ∧
     (0 : Amount) ≤ 2) ∧
    (((TransactionManager.new.apply (Transaction.new (TransactionType.Deposit 2) 1 7)).apply
        (Transaction.new TransactionType.Dispute 1 7)).get_or_create 1).held = 2 ∧
    (((TransactionManager.new.apply (Transaction.new (TransactionType.Deposit 2) 1 7)).apply
        (Transaction.new TransactionType.Dispute 1 7)).get_or_create 1).available =
      (TransactionManager.new.get_or_create 1).available ∧
    (((TransactionManager.new.apply (Transaction.new (TransactionType.Deposit 2) 1 7)).apply
        (Transaction.new TransactionType.Dispute 1 7)).get_or_create 1).available =
      ((TransactionManager.new.apply
        (Transaction.new (TransactionType.Deposit 2) 1 7)).get_or_create 1).available - 2 ∧
    ((TransactionManager.new.apply
        (Transaction.new (TransactionType.Deposit 2) 1 7)).process_transaction
      (Transaction.new TransactionType.Dispute 1 7)).2 = Except.ok () ∧
    (TransactionManager.new.process_transaction
      (Transaction.new (TransactionType.Deposit 2) 1 7)).2 = Except.ok () :=
  ⟨⟨rfl, rfl, by norm_num⟩,
   dispute_entry_behavior.2.2 TransactionManager.new 1 7 2 rfl rfl (by norm_num)⟩

/-- C1 counterexample: on a *locked* account that still holds an `Executed`
deposit record (reachable: deposit 1, deposit 2, dispute 1, chargeback 1),
a Dispute of that record raises an error and mutates nothing, although the
claim's condition (record present, `Executed`, Deposit) holds: the claim as
stated, which ignores the locked preamble, is false. -/
theorem dispute_entry_behavior_counterexample :
    (∃ r, alistLookup 2
        ((applyAll TransactionManager.new (toEntries
          [(TransactionType.Deposit 1, 1, 1), (TransactionType.Deposit 1, 1, 2),
           (TransactionType.Dispute, 1, 1),
           (TransactionType.Chargeback, 1, 1)])).get_or_create 1).transaction_index =
          some r ∧
      r.state = TransactionState.Executed ∧
      r.transaction_type = TransactionType.Deposit 1) ∧
    (applyAll TransactionManager.new (toEntries
        [(TransactionType.Deposit 1, 1, 1), (TransactionType.Deposit 1, 1, 2),
         (TransactionType.Dispute, 1, 1),
         (TransactionType.Chargeback, 1, 1)])).process_transaction
      (Transaction.new TransactionType.Dispute 1 2) =
      (applyAll TransactionManager.new (toEntries
        [(TransactionType.Deposit 1, 1, 1), (TransactionType.Deposit 1, 1, 2),
         (TransactionType.Dispute, 1, 1),
         (TransactionType.Chargeback, 1, 1)]), Except.error ⟨⟩) ∧
    (((applyAll TransactionManager.new (toEntries
        [(TransactionType.Deposit 1, 1, 1), (TransactionType.Deposit 1, 1, 2),
         (TransactionType.Dispute, 1, 1),
         (TransactionType.Chargeback, 1, 1)])).process_transaction
      (Transaction.new TransactionType.Dispute 1 2)).1.get_or_create 1).held = 0 ∧
    ((0 : Amount) + 1 ≠ 0) := by
  refine ⟨⟨Transaction.new (TransactionType.Deposit 1) 1 2, ?_, rfl, rfl⟩, ?_, ?_, by norm_num⟩
  all_goals
    norm_num [applyAll, toEntries, TransactionManager.apply, process_transaction_eq,
      TransactionManager.get_or_create, TransactionManager.new, Transaction.new,
      process_on_account, ClientAccount.new, alistInsert, alistLookup]


/-! ## C2: chargeback behaviour -/

/-- C2 (amended): for a Chargeback entry whose target account is *not
locked*, `process_transaction` is a no-op unless the client's own index holds
a record under the entry's `tx_id` that is a Deposit in state exactly
`Disputed`; when it applies, `held` decreases by the deposit's amount, the
record becomes `ChargedBack`, the `locked` flag becomes true and `available`
is unchanged. -/
theorem chargeback_entry_behavior :
    (∀ (m : TransactionManager) (t r : Transaction) (a : Amount),
        t.transaction_type = TransactionType.Chargeback →
        (m.get_or_create t.client).locked = false →
        alistLookup t.tx (m.get_or_create t.client).transaction_index = some r →
        r.state = TransactionState.Disputed →
        r.transaction_type = TransactionType.Deposit a →
        m.process_transaction t =
          ({ client_account_index := alistInsert t.client
              { m.get_or_create t.client with
                  held := (m.get_or_create t.client).held - a,
                  locked := true,
                  transaction_index :=
                    alistInsert t.tx { r with state := TransactionState.Chargedback }
                      (m.get_or_create t.client).transaction_index }
              m.client_account_index },
           Except.ok ()) ∧
        ((m.apply t).get_or_create t.client).available =
          (m.get_or_create t.client).available ∧
        ((m.apply t).get_or_create t.client).held = (m.get_or_create t.client).held - a ∧
        ((m.apply t).get_or_create t.client).locked = true ∧
        alistLookup t.tx ((m.apply t).get_or_create t.client).transaction_index =
          some { r with state := TransactionState.Chargedback }) ∧
    (∀ (m : TransactionManager) (t : Transaction),
        t.transaction_type = TransactionType.Chargeback →
        (m.get_or_create t.client).locked = false →
        (∀ r, alistLookup t.tx (m.get_or_create t.client).transaction_index = some r →
          r.state = TransactionState.Disputed →
          ∀ a, r.transaction_type ≠ TransactionType.Deposit a) →
        (m.process_transaction t).2 = Except.ok () ∧
        (m.apply t).get_or_create t.client = m.get_or_create t.client ∧
        (alistLookup t.client m.client_account_index = some (m.get_or_create t.client) →
          m.apply t = m)) := by
  constructor
  · intro m t r a htd hl hr hs hd
    have hstep := process_on_account_chargeback_hit _ t r a hl htd hr hs hd
    have h1 : (m.apply t).get_or_create t.client =
        { m.get_or_create t.client with
            held := (m.get_or_create t.client).held - a,
            locked := true,
            transaction_index :=
              alistInsert t.tx { r with state := TransactionState.Chargedback }
                (m.get_or_create t.client).transaction_index } := by
      have h := apply_get_or_create_self m t
      rw [hstep] at h
      exact h
    refine ⟨?_, ?_, ?_, ?_, ?_⟩
    · rw [process_transaction_eq, hstep]
    · rw [h1]
    · rw [h1]
    · rw [h1]
    · rw [h1]
      exact alistLookup_alistInsert_self _ _ _
  · intro m t htd hl hno
    have hstep := process_on_account_chargeback_noop _ t hl htd hno
    refine ⟨congrArg Prod.snd hstep, ?_, ?_⟩
    · rw [apply_get_or_create_self, hstep]
    · intro hacc
      exact apply_eq_self m t _ hacc (by rw [hstep])

/-- Witness for C2 at a concrete input: charging back a disputed deposit of
3 locks the account and takes `held` from 3 to 0 (an instance of the first
conjunct of the theorem). -/
theorem chargeback_entry_behavior_witness :
    let M : TransactionManager := { client_account_index :=
      [(1, { client := 1, available := 0, held := 3, locked := false,
             transaction_index :=
               [(5, { transaction_type := TransactionType.Deposit 3, client := 1, tx := 5,
                      state := TransactionState.Disputed })] })] }
    let t := Transaction.new TransactionType.Chargeback 1 5
    let r : Transaction := { transaction_type := TransactionType.Deposit 3, client := 1,
                             tx := 5, state := TransactionState.Disputed }
    (t.transaction_type = TransactionType.Chargeback ∧
     (M.get_or_create t.client).locked = false ∧
     alistLookup t.tx (M.get_or_create t.client).transaction_index = some r ∧
     r.state = TransactionState.Disputed ∧
     r.transaction_type = TransactionType.Deposit 3) ∧
    (M.process_transaction t =
      ({ client_account_index := alistInsert t.client
          { M.get_or_create t.client with
              held := (M.get_or_create t.client).held - 3,
              locked := true,
              transaction_index :=
                alistInsert t.tx { r with state := TransactionState.Chargedback }
                  (M.get_or_create t.client).transaction_index }
          M.client_account_index },
       Except.ok ()) ∧
     ((M.apply t).get_or_create t.client).available =
       (M.get_or_create t.client).available ∧
     ((M.apply t).get_or_create t.client).held = (M.get_or_create t.client).held - 3 ∧
     ((M.apply t).get_or_create t.client).locked = true ∧
     alistLookup t.tx ((M.apply t).get_or_create t.client).transaction_index =
       some { r with state := TransactionState.Chargedback }) :=
  ⟨⟨rfl, by norm_num [TransactionManager.get_or_create, Transaction.new, alistLookup],
    by norm_num [TransactionManager.get_or_create, Transaction.new, alistLookup], rfl, rfl⟩,
   chargeback_entry_behavior.1 _ _ _ 3 rfl
     (by norm_num [TransactionManager.get_or_create, Transaction.new, alistLookup])
     (by norm_num [TransactionManager.get_or_create, Transaction.new, alistLookup]) rfl rfl⟩

/-- C2 counterexample: on a *locked* account that still holds a `Disputed`
deposit record (reachable: deposit 1, deposit 2, dispute 1, dispute 2,
chargeback 1), a Chargeback of that record raises an error and changes
nothing — `held` stays 1 instead of decreasing to 0 — although the claim's
"applies" condition holds: the claim as stated, which ignores the locked
preamble, is false. -/
theorem chargeback_entry_behavior_counterexample :
    (∃ r, alistLookup 2
        ((applyAll TransactionManager.new (toEntries
          [(TransactionType.Deposit 1, 1, 1), (TransactionType.Deposit 1, 1, 2),
           (TransactionType.Dispute, 1, 1), (TransactionType.Dispute, 1, 2),
           (TransactionType.Chargeback, 1, 1)])).get_or_create 1).transaction_index =
          some r ∧
      r.state = TransactionState.Disputed ∧
      r.transaction_type = TransactionType.Deposit 1) ∧
    (applyAll TransactionManager.new (toEntries
        [(TransactionType.Deposit 1, 1, 1), (TransactionType.Deposit 1, 1, 2),
         (TransactionType.Dispute, 1, 1), (TransactionType.Dispute, 1, 2),
         (TransactionType.Chargeback, 1, 1)])).process_transaction
      (Transaction.new TransactionType.Chargeback 1 2) =
      (applyAll TransactionManager.new (toEntries
        [(TransactionType.Deposit 1, 1, 1), (TransactionType.Deposit 1, 1, 2),
         (TransactionType.Dispute, 1, 1), (TransactionType.Dispute, 1, 2),
         (TransactionType.Chargeback, 1, 1)]), Except.error ⟨⟩) ∧
    (((applyAll TransactionManager.new (toEntries
        [(TransactionType.Deposit 1, 1, 1), (TransactionType.Deposit 1, 1, 2),
         (TransactionType.Dispute, 1, 1), (TransactionType.Dispute, 1, 2),
         (TransactionType.Chargeback, 1, 1)])).process_transaction
      (Transaction.new TransactionType.Chargeback 1 2)).1.get_or_create 1).held = 1 ∧
    ((1 : Amount) ≠ 1 - 1) := by
  refine ⟨⟨{ transaction_type := TransactionType.Deposit 1, client := 1, tx := 2,
             state := TransactionState.Disputed }, ?_, rfl, rfl⟩, ?_, ?_, by norm_num⟩
  all_goals
    norm_num [applyAll, toEntries, TransactionManager.apply, process_transaction_eq,
      TransactionManager.get_or_create, TransactionManager.new, Transaction.new,
      process_on_account, ClientAccount.new, alistInsert, alistLookup]


/-! ## C7: the reference scenario -/

/-- The entry stream of the `process_transactions` test scenario. -/
def scenario_entries : List Transaction := toEntries
  [(TransactionType.Deposit 1, 1, 1), (TransactionType.Withdrawal 1, 1, 2),
   (TransactionType.Dispute, 1, 1), (TransactionType.Resolve, 1, 1),
   (TransactionType.Deposit 1, 1, 3), (TransactionType.Withdrawal 1, 1, 4),
   (TransactionType.Dispute, 1, 3), (TransactionType.Chargeback, 1, 3)]

/-- C7: deposit, withdraw, dispute, resolve, deposit, withdraw, dispute,
chargeback (all for client 1, amounts 1.0) all succeed and leave client 1
with `available = -1`, `held = 0`, `total = available + held = -1`,
`locked = true`. -/
theorem scenario_final_state :
    processes_cleanly TransactionManager.new scenario_entries = true ∧
    ((applyAll TransactionManager.new scenario_entries).get_or_create 1).available = -1 ∧
    ((applyAll TransactionManager.new scenario_entries).get_or_create 1).held = 0 ∧
    ((applyAll TransactionManager.new scenario_entries).get_or_create 1).available +
      ((applyAll TransactionManager.new scenario_entries).get_or_create 1).held = -1 ∧
    ((applyAll TransactionManager.new scenario_entries).get_or_create 1).locked = true := by
  refine ⟨?_, ?_, ?_, ?_, ?_⟩ <;>
    norm_num [scenario_entries, toEntries, processes_cleanly, applyAll,
      TransactionManager.apply, process_transaction_eq, TransactionManager.get_or_create,
      TransactionManager.new, Transaction.new, process_on_account, ClientAccount.new,
      alistInsert, alistLookup]


/-! ## C5: the per-record dispute state machine -/

/-- C5: one program step changes the record stored under any key `k` of any
client `c` in one of exactly these ways: it is left unchanged; it is
(re)written to the incoming `Transaction::new` entry itself, which is in
state `Executed` (a Deposit/Withdrawal insert under that very `tx_id`); or its
state moves along one of the transitions Executed --Dispute--> Disputed,
Disputed --Resolve--> Resolved, Disputed --Chargeback--> Chargedback of a
Deposit record, everything else about the record unchanged.  In particular no
dispute-cycle transition leaves `Resolved` or `Chargedback`, and no record
moves from `Executed` directly to `Resolved` or `Chargedback`: by induction
over any entry sequence the state machine of the claim is exactly the one the
code admits. -/
theorem record_state_machine (m : TransactionManager) (tt : TransactionType)
    (c0 tx0 c k : Nat) :
    alistLookup k ((m.apply (Transaction.new tt c0 tx0)).get_or_create c).transaction_index = alistLookup k (m.get_or_create c).transaction_index
    ∨ (alistLookup k ((m.apply (Transaction.new tt c0 tx0)).get_or_create c).transaction_index = some (Transaction.new tt c0 tx0) ∧
        (Transaction.new tt c0 tx0).state = TransactionState.Executed ∧ k = tx0 ∧ c = c0)
    ∨ (∃ r, alistLookup k (m.get_or_create c).transaction_index = some r ∧ r.state = TransactionState.Executed ∧
        (∃ a, r.transaction_type = TransactionType.Deposit a) ∧
        alistLookup k ((m.apply (Transaction.new tt c0 tx0)).get_or_create c).transaction_index = some { r with state := TransactionState.Disputed })
    ∨ (∃ r, alistLookup k (m.get_or_create c).transaction_index = some r ∧ r.state = TransactionState.Disputed ∧
        (∃ a, r.transaction_type = TransactionType.Deposit a) ∧
        alistLookup k ((m.apply (Transaction.new tt c0 tx0)).get_or_create c).transaction_index = some { r with state := TransactionState.Resolved })
    ∨ (∃ r, alistLookup k (m.get_or_create c).transaction_index = some r ∧ r.state = TransactionState.Disputed ∧
        (∃ a, r.transaction_type = TransactionType.Deposit a) ∧
        alistLookup k ((m.apply (Transaction.new tt c0 tx0)).get_or_create c).transaction_index = some { r with state := TransactionState.Chargedback }) := by
  by_cases hc : c = c0
  case neg =>
    left
    have h := apply_get_or_create_ne m (Transaction.new tt c0 tx0) c
      (by simpa [Transaction.new_client] using hc)
    rw [h]
  case pos =>
    subst hc
    have hg : (m.apply (Transaction.new tt c tx0)).get_or_create c =
        (process_on_account (m.get_or_create c) (Transaction.new tt c tx0)).1 := by
      have h := apply_get_or_create_self m (Transaction.new tt c tx0)
      simpa only [Transaction.new_client] using h
    rcases process_on_account_cases (m.get_or_create c) (Transaction.new tt c tx0) with
      ⟨hl, heq⟩ | ⟨hl, heq⟩ | ⟨hl, a, hta, heq⟩ | ⟨hl, a, hta, hav, heq⟩ |
      ⟨hl, r, a, hta, hr, hs, hd, heq⟩ | ⟨hl, r, a, hta, hr, hs, hd, heq⟩ |
      ⟨hl, r, a, hta, hr, hs, hd, heq⟩
    · left
      rw [hg, heq]
    · left
      rw [hg, heq]
    · by_cases hk : k = tx0
      · subst hk
        refine Or.inr (Or.inl ⟨?_, rfl, rfl, rfl⟩)
        rw [hg, heq]
        dsimp only
        simp only [Transaction.new_tx]
        exact alistLookup_alistInsert_self _ _ _
      · left
        rw [hg, heq]
        dsimp only
        simp only [Transaction.new_tx]
        exact alistLookup_alistInsert_ne _ _ _ _ hk
    · by_cases hk : k = tx0
      · subst hk
        refine Or.inr (Or.inl ⟨?_, rfl, rfl, rfl⟩)
        rw [hg, heq]
        dsimp only
        simp only [Transaction.new_tx]
        exact alistLookup_alistInsert_self _ _ _
      · left
        rw [hg, heq]
        dsimp only
        simp only [Transaction.new_tx]
        exact alistLookup_alistInsert_ne _ _ _ _ hk
    · by_cases hk : k = tx0
      · subst hk
        refine Or.inr (Or.inr (Or.inl ⟨r, ?_, hs, ⟨a, hd⟩, ?_⟩))
        · simpa only [Transaction.new_tx] using hr
        · rw [hg, heq]
          dsimp only
          simp only [Transaction.new_tx]
          exact alistLookup_alistInsert_self _ _ _
      · left
        rw [hg, heq]
        dsimp only
        simp only [Transaction.new_tx]
        exact alistLookup_alistInsert_ne _ _ _ _ hk
    · by_cases hk : k = tx0
      · subst hk
        refine Or.inr (Or.inr (Or.inr (Or.inl ⟨r, ?_, hs, ⟨a, hd⟩, ?_⟩)))
        · simpa only [Transaction.new_tx] using hr
        · rw [hg, heq]
          dsimp only
          simp only [Transaction.new_tx]
          exact alistLookup_alistInsert_self _ _ _
      · left
        rw [hg, heq]
        dsimp only
        simp only [Transaction.new_tx]
        exact alistLookup_alistInsert_ne _ _ _ _ hk
    · by_cases hk : k = tx0
      · subst hk
        refine Or.inr (Or.inr (Or.inr (Or.inr ⟨r, ?_, hs, ⟨a, hd⟩, ?_⟩)))
        · simpa only [Transaction.new_tx] using hr
        · rw [hg, heq]
          dsimp only
          simp only [Transaction.new_tx]
          exact alistLookup_alistInsert_self _ _ _
      · left
        rw [hg, heq]
        dsimp only
        simp only [Transaction.new_tx]
        exact alistLookup_alistInsert_ne _ _ _ _ hk


/-! ## C8: output truncation (`csv_writer.rs`) -/

/-- `f64::trunc`: round toward zero to an integer value (floor for
non-negative inputs, ceiling for negative ones). -/
def f64_trunc (val : Amount) : Amount :=
  if 0 ≤ val then ((⌊val⌋ : ℤ) : ℚ) else ((⌈val⌉ : ℤ) : ℚ)

/-- `limit_to_4_decimals` from `csv_writer.rs`:
`f64::trunc(val * 10000.0) / 10000.0`. -/
def limit_to_4_decimals (val : Amount) : Amount :=
  f64_trunc (val * 10000) / 10000

/-- The serialized `Record` of `csv_writer.rs`. -/
structure Record where
  client : Nat
  available : Amount
  held : Amount
  total : Amount
  locked : Bool
deriving DecidableEq

/-- `Record::new` from `csv_writer.rs`: each of `available`, `held`, `total`
is truncated independently, `total` from the full-precision
`available + held`. -/
def Record.new (client_account : ClientAccount) : Record :=
  { client := client_account.client,
    available := limit_to_4_decimals client_account.available,
    held := limit_to_4_decimals client_account.held,
    total := limit_to_4_decimals (client_account.available + client_account.held),
    locked := client_account.locked }

theorem f64_trunc_neg (q : Amount) : f64_trunc (-q) = -(f64_trunc q) := by
  rcases lt_trichotomy q 0 with h | h | h
  · have h1 : ¬ (0 ≤ q) := not_le.mpr h
    have h2 : 0 ≤ -q := by linarith
    simp [f64_trunc, h1, h2, Int.floor_neg]
  · subst h
    simp [f64_trunc]
  · have h1 : 0 ≤ q := le_of_lt h
    have h2 : ¬ (0 ≤ -q) := not_le.mpr (by linarith)
    simp [f64_trunc, h1, h2, Int.ceil_neg]

/-- C8: in the encoded snapshot each of `available`, `held`, `total` is the
4-decimal truncation (toward zero, not rounding) of the corresponding
full-precision value, and `total` truncates `available + held` computed
before any truncation.  Conjuncts: the structure of `Record::new`; the
truncation bracket on non-negative values; the toward-zero symmetry on
negatives (a floor-based rounding would violate it); 0.99999 truncates to
0.9999 (rounding would give 1); -0.00019 truncates to -0.0001 (floor would
give -0.0002); and an account whose `total` differs from the sum of its two
already-truncated components. -/
theorem snapshot_truncation :
    (∀ acc : ClientAccount,
      (Record.new acc).available = limit_to_4_decimals acc.available ∧
      (Record.new acc).held = limit_to_4_decimals acc.held ∧
      (Record.new acc).total = limit_to_4_decimals (acc.available + acc.held) ∧
      (Record.new acc).client = acc.client ∧ (Record.new acc).locked = acc.locked) ∧
    (∀ val : Amount, 0 ≤ val →
      limit_to_4_decimals val ≤ val ∧ val < limit_to_4_decimals val + 1 / 10000) ∧
    (∀ val : Amount, limit_to_4_decimals (-val) = -(limit_to_4_decimals val)) ∧
    limit_to_4_decimals (99999 / 100000) = 9999 / 10000 ∧
    limit_to_4_decimals (-(19 / 100000)) = -(1 / 10000) ∧
    (Record.new { client := 1, available := 1 / 20000, held := 1 / 20000,
                  locked := false, transaction_index := [] }).total = 1 / 10000 ∧
    limit_to_4_decimals (1 / 20000) + limit_to_4_decimals (1 / 20000) = 0 ∧
    (1 : Amount) / 10000 ≠ 0 := by
  have hfloor : ∀ val : Amount, 0 ≤ val → f64_trunc val = ((⌊val⌋ : ℤ) : ℚ) := by
    intro val h
    simp [f64_trunc, h]
  refine ⟨fun acc => ⟨rfl, rfl, rfl, rfl, rfl⟩, ?_, ?_, ?_, ?_, ?_, ?_, by norm_num⟩
  · intro val hval
    have hq : (0 : ℚ) ≤ val * 10000 := by positivity
    have h1 : ((⌊val * 10000⌋ : ℤ) : ℚ) ≤ val * 10000 := Int.floor_le _
    have h2 : val * 10000 < (⌊val * 10000⌋ : ℤ) + 1 := Int.lt_floor_add_one _
    constructor
    · rw [limit_to_4_decimals, hfloor _ hq]
      rw [div_le_iff₀ (by norm_num : (0:ℚ) < 10000)]
      linarith
    · rw [limit_to_4_decimals, hfloor _ hq]
      rw [div_add_div_same, lt_div_iff₀ (by norm_num : (0:ℚ) < 10000)]
      linarith
  · intro val
    rw [limit_to_4_decimals, limit_to_4_decimals, neg_mul, f64_trunc_neg, neg_div]
  · have h : ((99999 : ℚ) / 100000) * 10000 = 99999 / 10 := by norm_num
    have hf : ⌊(99999 : ℚ) / 10⌋ = 9999 := by
      rw [Int.floor_eq_iff]
      constructor <;> norm_num
    rw [limit_to_4_decimals, h, hfloor _ (by norm_num), hf]
    norm_num
  · have h : (-((19 : ℚ) / 100000)) * 10000 = -(19 / 10) := by norm_num
    have hc : ⌈-((19 : ℚ) / 10)⌉ = -1 := by
      rw [Int.ceil_eq_iff]
      constructor <;> norm_num
    have hneg : ¬ ((0:ℚ) ≤ -(19 / 10)) := by norm_num
    rw [limit_to_4_decimals, h, f64_trunc, if_neg hneg, hc]
    norm_num
  · have h : ((1 : ℚ) / 20000) + 1 / 20000 = 1 / 10000 := by norm_num
    have h2 : ((1 : ℚ) / 10000) * 10000 = 1 := by norm_num
    have hf : ⌊(1 : ℚ)⌋ = 1 := by norm_num
    show limit_to_4_decimals ((1 : ℚ) / 20000 + 1 / 20000) = 1 / 10000
    rw [h, limit_to_4_decimals, h2, hfloor _ (by norm_num), hf]
    norm_num
  · have h : ((1 : ℚ) / 20000) * 10000 = 1 / 2 := by norm_num
    have hf : ⌊(1 : ℚ) / 2⌋ = 0 := by
      rw [Int.floor_eq_iff]
      constructor <;> norm_num
    rw [limit_to_4_decimals, h, hfloor _ (by norm_num), hf]
    norm_num

/-- Witness for C8's truncation bracket at a concrete input. -/
theorem snapshot_truncation_witness :
    (0 : Amount) ≤ 1 / 2 ∧
    (limit_to_4_decimals ((1 : Amount) / 2) ≤ 1 / 2 ∧
     (1 : Amount) / 2 < limit_to_4_decimals ((1 : Amount) / 2) + 1 / 10000) :=
  ⟨by norm_num, snapshot_truncation.2.1 (1 / 2) (by norm_num)⟩


/-! ## C9: every non-Executed record is a Deposit -/

/-- Every record of the account whose state is not `Executed` is a Deposit. -/
def DepositOnlyNonExecuted (acc : ClientAccount) : Prop :=
  ∀ p ∈ acc.transaction_index, (p.2).state ≠ TransactionState.Executed →
    ∃ a, (p.2).transaction_type = TransactionType.Deposit a

/-- The invariant holds for every stored account. -/
def ManagerRecordsInv (m : TransactionManager) : Prop :=
  ∀ q ∈ m.client_account_index, DepositOnlyNonExecuted q.2

theorem depositOnly_get_or_create (m : TransactionManager) (c : Nat)
    (hinv : ManagerRecordsInv m) : DepositOnlyNonExecuted (m.get_or_create c) := by
  rcases hc : alistLookup c m.client_account_index with _ | acc
  · rw [get_or_create_of_none m c hc]
    intro p hp _
    simp [ClientAccount.new] at hp
  · rw [get_or_create_of_lookup m c acc hc]
    exact hinv (c, acc) (alistLookup_mem c acc _ hc)

theorem depositOnly_step (acc : ClientAccount) (t : Transaction)
    (hacc : DepositOnlyNonExecuted acc) (ht : t.state = TransactionState.Executed) :
    DepositOnlyNonExecuted (process_on_account acc t).1 := by
  rcases process_on_account_cases acc t with
    ⟨hl, heq⟩ | ⟨hl, heq⟩ | ⟨hl, a, hta, heq⟩ | ⟨hl, a, hta, hav, heq⟩ |
    ⟨hl, r, a, hta, hr, hs, hd, heq⟩ | ⟨hl, r, a, hta, hr, hs, hd, heq⟩ |
    ⟨hl, r, a, hta, hr, hs, hd, heq⟩
  · rw [heq]
    exact hacc
  · rw [heq]
    exact hacc
  · rw [heq]
    intro p hp hne
    dsimp only at hp
    rcases mem_alistInsert p t.tx t acc.transaction_index hp with h1 | h1
    · rw [h1] at hne
      exact absurd ht hne
    · exact hacc p h1 hne
  · rw [heq]
    intro p hp hne
    dsimp only at hp
    rcases mem_alistInsert p t.tx t acc.transaction_index hp with h1 | h1
    · rw [h1] at hne
      exact absurd ht hne
    · exact hacc p h1 hne
  · rw [heq]
    intro p hp hne
    dsimp only at hp
    rcases mem_alistInsert p t.tx { r with state := TransactionState.Disputed }
      acc.transaction_index hp with h1 | h1
    · rw [h1]
      exact ⟨a, hd⟩
    · exact hacc p h1 hne
  · rw [heq]
    intro p hp hne
    dsimp only at hp
    rcases mem_alistInsert p t.tx { r with state := TransactionState.Resolved }
      acc.transaction_index hp with h1 | h1
    · rw [h1]
      exact ⟨a, hd⟩
    · exact hacc p h1 hne
  · rw [heq]
    intro p hp hne
    dsimp only at hp
    rcases mem_alistInsert p t.tx { r with state := TransactionState.Chargedback }
      acc.transaction_index hp with h1 | h1
    · rw [h1]
      exact ⟨a, hd⟩
    · exact hacc p h1 hne

theorem recordsInv_apply (m : TransactionManager) (t : Transaction)
    (hinv : ManagerRecordsInv m) (ht : t.state = TransactionState.Executed) :
    ManagerRecordsInv (m.apply t) := by
  intro q hq
  rcases mem_alistInsert q t.client (process_on_account (m.get_or_create t.client) t).1
    m.client_account_index hq with h1 | h1
  · rw [h1]
    exact depositOnly_step _ t (depositOnly_get_or_create m t.client hinv) ht
  · exact hinv q h1

theorem recordsInv_applyAll (ts : List Transaction) : ∀ (m : TransactionManager),
    ManagerRecordsInv m → (∀ t ∈ ts, t.state = TransactionState.Executed) →
    ManagerRecordsInv (applyAll m ts) := by
  induction ts with
  | nil =>
      intro m h _
      exact h
  | cons t rest ih =>
      intro m h hts
      exact ih (m.apply t) (recordsInv_apply m t h (hts t (List.mem_cons_self t rest)))
        (fun u hu => hts u (List.mem_cons_of_mem t hu))

/-- C9: in every state reachable from the empty store by a stream of program
entries, every stored record whose state is not `Executed` is a Deposit; in
particular Withdrawal records stay `Executed` forever, so the non-Deposit
fallthrough arms of the Resolve and Chargeback handlers never fire on a
`Disputed` record. -/
theorem non_executed_records_are_deposits (entries : List (TransactionType × Nat × Nat))
    (c k : Nat) (r : Transaction)
    (hr : alistLookup k ((applyAll TransactionManager.new
      (toEntries entries)).get_or_create c).transaction_index = some r)
    (hs : r.state ≠ TransactionState.Executed) :
    ∃ a, r.transaction_type = TransactionType.Deposit a := by
  have hbase : ManagerRecordsInv TransactionManager.new := by
    intro q hq
    simp [TransactionManager.new] at hq
  have hts : ∀ t ∈ toEntries entries, t.state = TransactionState.Executed := by
    intro t htm
    simp only [toEntries, List.mem_map] at htm
    rcases htm with ⟨e, he, rfl⟩
    rfl
  have hinv := recordsInv_applyAll (toEntries entries) TransactionManager.new hbase hts
  exact depositOnly_get_or_create _ c hinv (k, r) (alistLookup_mem k r _ hr) hs

/-- Witness for C9 at a concrete input: after deposit then dispute, the
record under tx 1 is `Disputed` and indeed a Deposit. -/
theorem non_executed_records_are_deposits_witness :
    (alistLookup 1 ((applyAll TransactionManager.new (toEntries
        [(TransactionType.Deposit 5, 1, 1), (TransactionType.Dispute, 1, 1)])).get_or_create
        1).transaction_index =
      some { transaction_type := TransactionType.Deposit 5, client := 1, tx := 1,
             state := TransactionState.Disputed } ∧
     ({ transaction_type := TransactionType.Deposit 5, client := 1, tx := 1,
        state := TransactionState.Disputed } : Transaction).state ≠
       TransactionState.Executed) ∧
    (∃ a, ({ transaction_type := TransactionType.Deposit 5, client := 1, tx := 1,
             state := TransactionState.Disputed } : Transaction).transaction_type =
      TransactionType.Deposit a) :=
  ⟨⟨by norm_num [applyAll, toEntries, TransactionManager.apply, process_transaction_eq,
      TransactionManager.get_or_create, TransactionManager.new, Transaction.new,
      process_on_account, ClientAccount.new, alistInsert, alistLookup],
    by decide⟩,
   non_executed_records_are_deposits
     [(TransactionType.Deposit 5, 1, 1), (TransactionType.Dispute, 1, 1)] 1 1
     { transaction_type := TransactionType.Deposit 5, client := 1, tx := 1,
       state := TransactionState.Disputed }
     (by norm_num [applyAll, toEntries, TransactionManager.apply, process_transaction_eq,
        TransactionManager.get_or_create, TransactionManager.new, Transaction.new,
        process_on_account, ClientAccount.new, alistInsert, alistLookup])
     (by decide)⟩


/-! ## C10: held versus the sum of disputed amounts -/

/-- The amount carried by a stored record (0 for the amountless variants,
which are never stored). -/
def transaction_amount (t : Transaction) : Amount :=
  match t.transaction_type with
  | TransactionType.Deposit amount => amount
  | TransactionType.Withdrawal amount => amount
  | _ => 0

/-- The contribution of one record to the disputed total: its amount if it
is currently in state `Disputed`, else 0. -/
def disputed_contrib (t : Transaction) : Amount :=
  if t.state = TransactionState.Disputed then transaction_amount t else 0

/-- Sum of the amounts of the records currently in state `Disputed`. -/
def disputedSum : List (Nat × Transaction) → Amount
  | [] => 0
  | p :: rest => disputed_contrib p.2 + disputedSum rest

theorem disputedSum_insert_found (k : Nat) (v : Transaction)
    (l : List (Nat × Transaction)) (r : Transaction) (h : alistLookup k l = some r) :
    disputedSum (alistInsert k v l) =
      disputedSum l + disputed_contrib v - disputed_contrib r := by
  induction l with
  | nil => simp [alistLookup] at h
  | cons p rest ih =>
      by_cases h2 : k = p.1
      · simp [alistLookup, h2] at h
        subst h
        simp [alistInsert, h2, disputedSum]
        ring
      · simp only [alistLookup, if_neg h2] at h
        simp only [alistInsert, if_neg h2, disputedSum, ih h]
        ring

theorem disputedSum_insert_none (k : Nat) (v : Transaction)
    (l : List (Nat × Transaction)) (h : alistLookup k l = none) :
    disputedSum (alistInsert k v l) = disputedSum l + disputed_contrib v := by
  induction l with
  | nil => simp [alistInsert, disputedSum]
  | cons p rest ih =>
      by_cases h2 : k = p.1
      · simp [alistLookup, h2] at h
      · simp only [alistLookup, if_neg h2] at h
        simp only [alistInsert, if_neg h2, disputedSum, ih h]
        ring

theorem disputedSum_nonneg (l : List (Nat × Transaction))
    (h : ∀ p ∈ l, 0 ≤ disputed_contrib p.2) : 0 ≤ disputedSum l := by
  induction l with
  | nil => simp [disputedSum]
  | cons p rest ih =>
      have h1 := h p (List.mem_cons_self p rest)
      have h2 := ih (fun q hq => h q (List.mem_cons_of_mem p hq))
      simp only [disputedSum]
      linarith

/-- The per-account inductive invariant: every stored Deposit has a
non-negative amount, every `Disputed` record is a Deposit, and `held`
dominates the sum of the disputed amounts. -/
def HeldInv (acc : ClientAccount) : Prop :=
  (∀ p ∈ acc.transaction_index, ∀ a, (p.2).transaction_type = TransactionType.Deposit a →
    0 ≤ a) ∧
  (∀ p ∈ acc.transaction_index, (p.2).state = TransactionState.Disputed →
    ∃ a, (p.2).transaction_type = TransactionType.Deposit a) ∧
  disputedSum acc.transaction_index ≤ acc.held

theorem contrib_nonneg_of_inv (acc : ClientAccount)
    (h1 : ∀ p ∈ acc.transaction_index, ∀ a,
      (p.2).transaction_type = TransactionType.Deposit a → 0 ≤ a)
    (h2 : ∀ p ∈ acc.transaction_index, (p.2).state = TransactionState.Disputed →
      ∃ a, (p.2).transaction_type = TransactionType.Deposit a) :
    ∀ p ∈ acc.transaction_index, 0 ≤ disputed_contrib p.2 := by
  intro p hp
  by_cases hd : (p.2).state = TransactionState.Disputed
  · obtain ⟨a, ha⟩ := h2 p hp hd
    have := h1 p hp a ha
    simp only [disputed_contrib, if_pos hd, transaction_amount, ha]
    exact this
  · simp [disputed_contrib, hd]


theorem heldInv_step (acc : ClientAccount) (t : Transaction)
    (hacc : HeldInv acc) (ht : t.state = TransactionState.Executed)
    (hnn : ∀ a, t.transaction_type = TransactionType.Deposit a → 0 ≤ a) :
    HeldInv (process_on_account acc t).1 := by
  obtain ⟨h1, h2, h3⟩ := hacc
  have hcn := contrib_nonneg_of_inv acc h1 h2
  have hct : disputed_contrib t = 0 := by
    simp [disputed_contrib, ht]
  rcases process_on_account_cases acc t with
    ⟨hl, heq⟩ | ⟨hl, heq⟩ | ⟨hl, a, hta, heq⟩ | ⟨hl, a, hta, hav, heq⟩ |
    ⟨hl, r, a, hta, hr, hs, hd, heq⟩ | ⟨hl, r, a, hta, hr, hs, hd, heq⟩ |
    ⟨hl, r, a, hta, hr, hs, hd, heq⟩
  · rw [heq]
    exact ⟨h1, h2, h3⟩
  · rw [heq]
    exact ⟨h1, h2, h3⟩
  · rw [heq]
    refine ⟨?_, ?_, ?_⟩
    · intro p hp a2 hpa
      dsimp only at hp
      rcases mem_alistInsert p t.tx t acc.transaction_index hp with hx | hx
      · rw [hx] at hpa
        exact hnn a2 hpa
      · exact h1 p hx a2 hpa
    · intro p hp hpd
      dsimp only at hp
      rcases mem_alistInsert p t.tx t acc.transaction_index hp with hx | hx
      · rw [hx] at hpd
        dsimp only at hpd
        rw [ht] at hpd
        cases hpd
      · exact h2 p hx hpd
    · dsimp only
      rcases hk : alistLookup t.tx acc.transaction_index with _ | rOld
      · rw [disputedSum_insert_none _ _ _ hk, hct]
        linarith
      · have hro : 0 ≤ disputed_contrib rOld :=
          hcn (t.tx, rOld) (alistLookup_mem _ _ _ hk)
        rw [disputedSum_insert_found _ _ _ _ hk, hct]
        linarith
  · rw [heq]
    refine ⟨?_, ?_, ?_⟩
    · intro p hp a2 hpa
      dsimp only at hp
      rcases mem_alistInsert p t.tx t acc.transaction_index hp with hx | hx
      · rw [hx] at hpa
        exact hnn a2 hpa
      · exact h1 p hx a2 hpa
    · intro p hp hpd
      dsimp only at hp
      rcases mem_alistInsert p t.tx t acc.transaction_index hp with hx | hx
      · rw [hx] at hpd
        dsimp only at hpd
        rw [ht] at hpd
        cases hpd
      · exact h2 p hx hpd
    · dsimp only
      rcases hk : alistLookup t.tx acc.transaction_index with _ | rOld
      · rw [disputedSum_insert_none _ _ _ hk, hct]
        linarith
      · have hro : 0 ≤ disputed_contrib rOld :=
          hcn (t.tx, rOld) (alistLookup_mem _ _ _ hk)
        rw [disputedSum_insert_found _ _ _ _ hk, hct]
        linarith
  · rw [heq]
    have hamem := alistLookup_mem _ _ _ hr
    have hanneg : 0 ≤ a := h1 (t.tx, r) hamem a hd
    have hcr : disputed_contrib r = 0 := by
      simp [disputed_contrib, hs]
    have hcr2 : disputed_contrib { r with state := TransactionState.Disputed } = a := by
      simp [disputed_contrib, transaction_amount, hd]
    refine ⟨?_, ?_, ?_⟩
    · intro p hp a2 hpa
      dsimp only at hp
      rcases mem_alistInsert p t.tx { r with state := TransactionState.Disputed }
        acc.transaction_index hp with hx | hx
      · rw [hx] at hpa
        dsimp only at hpa
        exact h1 (t.tx, r) hamem a2 hpa
      · exact h1 p hx a2 hpa
    · intro p hp hpd
      dsimp only at hp
      rcases mem_alistInsert p t.tx { r with state := TransactionState.Disputed }
        acc.transaction_index hp with hx | hx
      · rw [hx]
        exact ⟨a, hd⟩
      · exact h2 p hx hpd
    · dsimp only
      rw [disputedSum_insert_found _ _ _ _ hr, hcr, hcr2]
      linarith
  · rw [heq]
    have hamem := alistLookup_mem _ _ _ hr
    have hcr : disputed_contrib r = a := by
      simp [disputed_contrib, transaction_amount, hs, hd]
    have hcr2 : disputed_contrib { r with state := TransactionState.Resolved } = 0 := by
      simp [disputed_contrib]
    refine ⟨?_, ?_, ?_⟩
    · intro p hp a2 hpa
      dsimp only at hp
      rcases mem_alistInsert p t.tx { r with state := TransactionState.Resolved }
        acc.transaction_index hp with hx | hx
      · rw [hx] at hpa
        dsimp only at hpa
        exact h1 (t.tx, r) hamem a2 hpa
      · exact h1 p hx a2 hpa
    · intro p hp hpd
      dsimp only at hp
      rcases mem_alistInsert p t.tx { r with state := TransactionState.Resolved }
        acc.transaction_index hp with hx | hx
      · rw [hx] at hpd
        dsimp only at hpd
        cases hpd
      · exact h2 p hx hpd
    · dsimp only
      rw [disputedSum_insert_found _ _ _ _ hr, hcr, hcr2]
      linarith
  · rw [heq]
    have hamem := alistLookup_mem _ _ _ hr
    have hcr : disputed_contrib r = a := by
      simp [disputed_contrib, transaction_amount, hs, hd]
    have hcr2 : disputed_contrib { r with state := TransactionState.Chargedback } = 0 := by
      simp [disputed_contrib]
    refine ⟨?_, ?_, ?_⟩
    · intro p hp a2 hpa
      dsimp only at hp
      rcases mem_alistInsert p t.tx { r with state := TransactionState.Chargedback }
        acc.transaction_index hp with hx | hx
      · rw [hx] at hpa
        dsimp only at hpa
        exact h1 (t.tx, r) hamem a2 hpa
      · exact h1 p hx a2 hpa
    · intro p hp hpd
      dsimp only at hp
      rcases mem_alistInsert p t.tx { r with state := TransactionState.Chargedback }
        acc.transaction_index hp with hx | hx
      · rw [hx] at hpd
        dsimp only at hpd
        cases hpd
      · exact h2 p hx hpd
    · dsimp only
      rw [disputedSum_insert_found _ _ _ _ hr, hcr, hcr2]
      linarith

/-- The invariant holds for every stored account. -/
def ManagerHeldInv (m : TransactionManager) : Prop :=
  ∀ q ∈ m.client_account_index, HeldInv q.2

theorem heldInv_get_or_create (m : TransactionManager) (c : Nat)
    (hinv : ManagerHeldInv m) : HeldInv (m.get_or_create c) := by
  rcases hc : alistLookup c m.client_account_index with _ | acc
  · rw [get_or_create_of_none m c hc]
    refine ⟨?_, ?_, ?_⟩
    · intro p hp
      simp [ClientAccount.new] at hp
    · intro p hp
      simp [ClientAccount.new] at hp
    · simp [ClientAccount.new, disputedSum]
  · rw [get_or_create_of_lookup m c acc hc]
    exact hinv (c, acc) (alistLookup_mem c acc _ hc)

theorem heldInv_apply (m : TransactionManager) (t : Transaction)
    (hinv : ManagerHeldInv m) (ht : t.state = TransactionState.Executed)
    (hnn : ∀ a, t.transaction_type = TransactionType.Deposit a → 0 ≤ a) :
    ManagerHeldInv (m.apply t) := by
  intro q hq
  rcases mem_alistInsert q t.client (process_on_account (m.get_or_create t.client) t).1
    m.client_account_index hq with h1 | h1
  · rw [h1]
    exact heldInv_step _ t (heldInv_get_or_create m t.client hinv) ht hnn
  · exact hinv q h1

theorem heldInv_applyAll (ts : List Transaction) : ∀ (m : TransactionManager),
    ManagerHeldInv m →
    (∀ t ∈ ts, t.state = TransactionState.Executed ∧
      (∀ a, t.transaction_type = TransactionType.Deposit a → 0 ≤ a)) →
    ManagerHeldInv (applyAll m ts) := by
  induction ts with
  | nil =>
      intro m h _
      exact h
  | cons t rest ih =>
      intro m h hts
      exact ih (m.apply t)
        (heldInv_apply m t h (hts t (List.mem_cons_self t rest)).1
          (hts t (List.mem_cons_self t rest)).2)
        (fun u hu => hts u (List.mem_cons_of_mem t hu))

/-- C10 (amended): for every entry stream whose Deposit amounts are all
non-negative, every reachable account satisfies `0 <= held`; `held`
dominates (but, because a deposit may overwrite a disputed record under the
same `tx_id`, does not in general equal) the sum of the amounts of the
records currently in state `Disputed`, so chargebacks and resolves never
drive `held` below zero. -/
theorem held_nonneg (entries : List (TransactionType × Nat × Nat))
    (hnn : ∀ e ∈ entries, ∀ a : Amount, e.1 = TransactionType.Deposit a → 0 ≤ a)
    (c : Nat) :
    disputedSum ((applyAll TransactionManager.new
        (toEntries entries)).get_or_create c).transaction_index ≤
      ((applyAll TransactionManager.new (toEntries entries)).get_or_create c).held ∧
    0 ≤ ((applyAll TransactionManager.new (toEntries entries)).get_or_create c).held := by
  have hbase : ManagerHeldInv TransactionManager.new := by
    intro q hq
    simp [TransactionManager.new] at hq
  have hts : ∀ t ∈ toEntries entries, t.state = TransactionState.Executed ∧
      (∀ a, t.transaction_type = TransactionType.Deposit a → 0 ≤ a) := by
    intro t htm
    simp only [toEntries, List.mem_map] at htm
    rcases htm with ⟨e, he, rfl⟩
    exact ⟨rfl, fun a ha => hnn e he a ha⟩
  have hinv := heldInv_applyAll (toEntries entries) TransactionManager.new hbase hts
  obtain ⟨h1, h2, h3⟩ := heldInv_get_or_create _ c hinv
  have hsum := disputedSum_nonneg _ (contrib_nonneg_of_inv _ h1 h2)
  exact ⟨h3, le_trans hsum h3⟩

/-- Witness for C10 at a concrete input: deposit 2 then dispute it. -/
theorem held_nonneg_witness :
    (∀ e ∈ ([(TransactionType.Deposit 2, 1, 1), (TransactionType.Dispute, 1, 1)] :
        List (TransactionType × Nat × Nat)),
      ∀ a : Amount, e.1 = TransactionType.Deposit a → 0 ≤ a) ∧
    (disputedSum ((applyAll TransactionManager.new (toEntries
        [(TransactionType.Deposit 2, 1, 1),
         (TransactionType.Dispute, 1, 1)])).get_or_create 1).transaction_index ≤
      ((applyAll TransactionManager.new (toEntries
        [(TransactionType.Deposit 2, 1, 1),
         (TransactionType.Dispute, 1, 1)])).get_or_create 1).held ∧
     0 ≤ ((applyAll TransactionManager.new (toEntries
        [(TransactionType.Deposit 2, 1, 1),
         (TransactionType.Dispute, 1, 1)])).get_or_create 1).held) := by
  have hyp : ∀ e ∈ ([(TransactionType.Deposit 2, 1, 1), (TransactionType.Dispute, 1, 1)] :
      List (TransactionType × Nat × Nat)),
      ∀ a : Amount, e.1 = TransactionType.Deposit a → 0 ≤ a := by
    intro e he a h
    simp only [List.mem_cons, List.not_mem_nil, or_false] at he
    rcases he with rfl | rfl
    · dsimp only at h
      injection h with h2
      rw [← h2]
      norm_num
    · dsimp only at h
      simp at h
  exact ⟨hyp, held_nonneg
    [(TransactionType.Deposit 2, 1, 1), (TransactionType.Dispute, 1, 1)] hyp 1⟩

/-- C10 counterexample for the "held equals the sum" part: the stream
deposit(tx 1, amount 5), dispute(tx 1), deposit(tx 1, amount 3) has only
non-negative deposit amounts, yet it leaves `held = 5` while the sum of the
`Disputed` amounts is 0 — the third entry overwrites the disputed record
(last-write-wins) without releasing the held funds. -/
theorem held_sum_counterexample :
    (∀ e ∈ ([(TransactionType.Deposit 5, 1, 1), (TransactionType.Dispute, 1, 1),
             (TransactionType.Deposit 3, 1, 1)] : List (TransactionType × Nat × Nat)),
      ∀ a : Amount, e.1 = TransactionType.Deposit a → 0 ≤ a) ∧
    ((applyAll TransactionManager.new (toEntries
        [(TransactionType.Deposit 5, 1, 1), (TransactionType.Dispute, 1, 1),
         (TransactionType.Deposit 3, 1, 1)])).get_or_create 1).held = 5 ∧
    disputedSum ((applyAll TransactionManager.new (toEntries
        [(TransactionType.Deposit 5, 1, 1), (TransactionType.Dispute, 1, 1),
         (TransactionType.Deposit 3, 1, 1)])).get_or_create 1).transaction_index = 0 ∧
    (5 : Amount) ≠ 0 := by
  refine ⟨?_, ?_, ?_, by norm_num⟩
  · intro e he a h
    simp only [List.mem_cons, List.not_mem_nil, or_false] at he
    rcases he with rfl | rfl | rfl
    · dsimp only at h
      injection h with h2
      rw [← h2]
      norm_num
    · dsimp only at h
      simp at h
    · dsimp only at h
      injection h with h2
      rw [← h2]
      norm_num
  all_goals
    norm_num [applyAll, toEntries, TransactionManager.apply, process_transaction_eq,
      TransactionManager.get_or_create, TransactionManager.new, Transaction.new,
      process_on_account, ClientAccount.new, alistInsert, alistLookup,
      disputedSum, disputed_contrib, transaction_amount]
  all_goals decide

end PaymentsEngine
